import Mathlib

/-!
Shallow embedding of the agent-update core of the ElegantRL repository
(files `elegantrl/agents/AgentDQN.py` and `elegantrl/agents/AgentTD3.py`).

Tensors of rationals stand in for floating-point tensors: a `[B]` tensor is a
`List ℚ`, a `[B, D]` tensor is a `List (List ℚ)` (one inner list per row).
Neural networks built by the external `build_mlp` helper (in `AgentBase.py`,
outside the reviewed sources) are abstract functions `List ℚ → List ℚ`.
The elementwise regression criterion `self.criterion` also lives in
`AgentBase.py`; following the spec ("elementwise regression loss (e.g. smooth
L1)") it is an abstract elementwise function `ℚ → ℚ → ℚ` applied pointwise.
Python dynamic values (the `update_t` argument checked by
`assert isinstance(update_t, int)`) are modelled by an explicit sum type, and
an update call returns `Except`, so a rejected call provably produces no
side effects (the effects record only exists in the `ok` branch).
-/

namespace ElegantRL

/-- Vectors: one row of a 2-d tensor, or a whole 1-d tensor. -/
abbrev Vec := List ℚ

/-- Mirrors `tensor.max(dim=...)` on a nonempty slice: maximum of a list
(junk value 0 on the empty list, where torch would raise). -/
def listMax : List ℚ → ℚ
  | [] => 0
  | x :: xs => xs.foldl max x

/-- Mirrors `tensor.min(dim=...)` on a nonempty slice: minimum of a list
(junk value 0 on the empty list, where torch would raise). -/
def listMin : List ℚ → ℚ
  | [] => 0
  | x :: xs => xs.foldl min x

/-- Mirrors `tensor.mean()`: sum divided by length (0 on the empty list). -/
def listMean (l : List ℚ) : ℚ := l.sum / (l.length : ℚ)

/-- Three-list pointwise zip, used for `reward + undone * gamma * next_q`
style expressions over aligned batch tensors. -/
def zip3With (f : α → β → γ → δ) : List α → List β → List γ → List δ
  | a :: as, b :: bs, c :: cs => f a b c :: zip3With f as bs cs
  | _, _, _ => []

/-- Normalization `(state - state_avg) / state_std` from `QNetBase.state_norm`
and `CriticBase.state_norm` (applied per feature). -/
def stateNorm (avg std s : Vec) : Vec :=
  zip3With (fun x a d => (x - a) / d) s avg std

/-- Python runtime value passed as the `update_t` argument: either a genuine
`int` or a non-integer (`float`) value, as distinguished by the
`assert isinstance(update_t, int)` guard at the top of every update method. -/
inductive PyVal where
  | int : ℤ → PyVal
  | float : ℚ → PyVal
deriving DecidableEq

/-- Whether `isinstance(update_t, int)` holds for the value. -/
def PyVal.isInt : PyVal → Bool
  | .int _ => true
  | .float _ => false

/-- Side effects an update call performs on agent-owned state, read off the
source: `optimizer_backward` steps, `soft_update` calls, and the
`buffer.td_error_update_for_per` priority feedback (indices and errors). -/
structure UpdateEffects where
  criticStepped : Bool
  criticTargetSoftUpdated : Bool
  actorStepped : Bool
  actorTargetSoftUpdated : Bool
  bufferPriorityFeedback : Option (List ℕ × List ℚ)
deriving DecidableEq

/-- Index of the first maximal entry of a row, mirroring
`tensor.argmax(dim=1)` (0 on the empty row, where torch would raise). -/
def argmaxIdx : List ℚ → ℕ
  | [] => 0
  | x :: xs => if listMax xs ≤ x then 0 else argmaxIdx xs + 1

/-- Dueling combination `value = q_val - q_val.mean(dim=1, keepdim=True) + q_adv`
from `QNetDuel.forward` / `QNetTwinDuel.forward` / `QNetTwinDuel.get_q1_q2`:
`q_val` is the per-action output of `net_val`, `q_adv` the scalar (output
dimension 1) result of `net_adv`, broadcast across the action dimension. -/
def duelCombine (q_val : Vec) (q_adv : ℚ) : Vec :=
  q_val.map (fun v => v - listMean q_val + q_adv)

namespace QNetwork

/-- Embeds `QNetwork.forward`: Q-values of a single (row) state. `qnet` is the
MLP `self.net` built by the external `build_mlp`. -/
def forward (qnet : Vec → Vec) (avg std s : Vec) : Vec :=
  qnet (stateNorm avg std s)

/-- Embeds `QNetwork.get_action` over a batch of states with the randomness
made explicit: `u` is the single scalar drawn by `th.rand(1)` and compared
against `explore_rate` once for the whole batch, and `randActions` is the
per-row tape of `th.randint(self.action_dim, size=(state.shape[0], 1))`
draws used when the explore branch is taken. -/
def get_action (qnet : Vec → Vec) (avg std : Vec) (states : List Vec)
    (explore_rate u : ℚ) (randActions : List ℕ) : List ℕ :=
  if explore_rate < u then
    states.map (fun s => argmaxIdx (qnet (stateNorm avg std s)))
  else
    randActions

end QNetwork

namespace QNetDuel

/-- Embeds `QNetDuel.forward`: encode the normalized state, apply the
per-action head `net_val` and the scalar head `net_adv`, and combine by the
dueling rule. -/
def forward (net_state net_val : Vec → Vec) (net_adv : Vec → ℚ)
    (avg std s : Vec) : Vec :=
  let s_enc := net_state (stateNorm avg std s)
  duelCombine (net_val s_enc) (net_adv s_enc)

end QNetDuel

namespace QNetTwin

/-- Embeds `QNetTwin.get_q1_q2`: the two per-action heads applied to the
shared encoding of the normalized state. -/
def get_q1_q2 (net_state net_val1 net_val2 : Vec → Vec)
    (avg std s : Vec) : Vec × Vec :=
  let s_enc := net_state (stateNorm avg std s)
  (net_val1 s_enc, net_val2 s_enc)

end QNetTwin

namespace QNetTwinDuel

/-- Embeds `QNetTwinDuel.get_q1_q2`: two advantage/value head pairs on the
shared encoding, each combined by the dueling rule. -/
def get_q1_q2 (net_state net_val1 net_val2 : Vec → Vec)
    (net_adv1 net_adv2 : Vec → ℚ) (avg std s : Vec) : Vec × Vec :=
  let s_enc := net_state (stateNorm avg std s)
  (duelCombine (net_val1 s_enc) (net_adv1 s_enc),
   duelCombine (net_val2 s_enc) (net_adv2 s_enc))

end QNetTwinDuel

/-- Embeds the `CriticTwin` module of `AgentTD3.py`: `net` is the MLP built by
the external `build_mlp` mapping the concatenated (state, action) vector to
`num_ensembles` scalar estimates. -/
structure CriticTwin where
  net : Vec → Vec
  state_avg : Vec
  state_std : Vec

namespace CriticTwin

/-- Embeds `CriticTwin.get_q_values`: normalize the state, concatenate the
action (`th.cat((state, action), dim=1)`), apply the ensemble net. -/
def get_q_values (c : CriticTwin) (state action : Vec) : Vec :=
  c.net (stateNorm c.state_avg c.state_std state ++ action)

/-- Embeds `CriticTwin.forward` exactly as written in the source: the state is
normalized by `forward` itself and then passed to `get_q_values`, which
normalizes it a second time; the result is the mean over the ensemble. -/
def forward (c : CriticTwin) (state action : Vec) : ℚ :=
  listMean (c.get_q_values (stateNorm c.state_avg c.state_std state) action)

end CriticTwin

/-- Next-state value of the plain/dueling DQN update
(`AgentDQN._update_objectives_raw` line 41 and `_per` line 57):
`self.cri_target(next_state).max(dim=1, keepdim=True)[0].squeeze(1)`.
`criTarget` is the target module's forward pass. -/
def dqn_next_q (criTarget : Vec → Vec) (next_state : List Vec) : List ℚ :=
  next_state.map (fun ns => listMax (criTarget ns))

/-- Next-state value of the double/twin DQN update
(`AgentDoubleDQN._update_objectives_raw` line 98 and `_per` line 114):
`th.min(*self.cri_target.get_q1_q2(next_state)).max(dim=1, keepdim=True)[0].squeeze(1)`
— elementwise minimum of the two target estimators, then maximum over the
action dimension. `getQ1Q2` is the target module's `get_q1_q2`. -/
def ddqn_next_q (getQ1Q2 : Vec → Vec × Vec) (next_state : List Vec) : List ℚ :=
  next_state.map (fun ns =>
    listMax (List.zipWith min (getQ1Q2 ns).1 (getQ1Q2 ns).2))

/-- Next-state value of the TD3 update (`AgentTD3._update_objectives_raw`
line 39 and `_per` line 64):
`self.cri_target.get_q_values(next_state, next_action).min(dim=1, keepdim=True)[0]`
— minimum over the critic-ensemble dimension. -/
def td3_next_q (criTargetQs : Vec → Vec → Vec)
    (next_state next_action : List Vec) : List ℚ :=
  List.zipWith (fun ns na => listMin (criTargetQs ns na)) next_state next_action

/-- Regression target `q_label = reward + undone * self.gamma * next_q` of the
plain/dueling DQN update (`AgentDQN`, lines 42 and 58). -/
def dqn_q_label (gamma : ℚ) (reward undone next_q : List ℚ) : List ℚ :=
  zip3With (fun r u nq => r + u * gamma * nq) reward undone next_q

/-- Regression target `q_label = reward + undone * self.gamma * next_q` of the
double/twin DQN update (`AgentDoubleDQN`, lines 99 and 115). -/
def ddqn_q_label (gamma : ℚ) (reward undone next_q : List ℚ) : List ℚ :=
  zip3With (fun r u nq => r + u * gamma * nq) reward undone next_q

/-- Regression target `q_label = reward + undone * self.gamma * next_q` of the
TD3 update (`AgentTD3`, lines 41 and 66). -/
def td3_q_label (gamma : ℚ) (reward undone next_q : List ℚ) : List ℚ :=
  zip3With (fun r u nq => r + u * gamma * nq) reward undone next_q

/-- Per-sample error of the twin-Q DQN prioritized update
(`AgentDoubleDQN._update_objectives_per` line 118):
`(self.criterion(q_value1, q_label) + self.criterion(q_value2, q_label)) * unmask`.
The same expression, immediately wrapped in a mean, is the raw objective
(line 102). `crit` is the elementwise criterion. -/
def ddqn_td_error (crit : ℚ → ℚ → ℚ)
    (q_value1 q_value2 q_label unmask : List ℚ) : List ℚ :=
  List.zipWith (· * ·)
    (zip3With (fun v1 v2 lab => crit v1 lab + crit v2 lab) q_value1 q_value2 q_label)
    unmask

/-- Per-row, per-head criterion values of TD3: `self.criterion(q_values, q_labels)`
where `q_labels = q_label.repeat(1, num_ensembles)` (lines 44-45 and 69-70);
row `b` holds the loss of each ensemble head against the row's label. -/
def td3_head_losses (crit : ℚ → ℚ → ℚ)
    (q_values : List Vec) (q_label : List ℚ) : List Vec :=
  List.zipWith (fun row lab => row.map (fun q => crit q lab)) q_values q_label

/-- Critic objective of the raw TD3 update (`AgentTD3._update_objectives_raw`
line 45): `(self.criterion(q_values, q_labels) * unmask).mean()` — the
`[B, N]` elementwise losses are scaled row-wise by `unmask` (shape `[B, 1]`,
broadcast over the ensemble dimension) and averaged over all entries. -/
def td3_obj_critic_raw (crit : ℚ → ℚ → ℚ)
    (q_values : List Vec) (q_label unmask : List ℚ) : ℚ :=
  listMean (List.flatten
    (List.zipWith (fun row um => row.map (· * um))
      (td3_head_losses crit q_values q_label) unmask))

/-- Per-sample error of the prioritized TD3 update
(`AgentTD3._update_objectives_per` line 70):
`self.criterion(q_values, q_labels).mean(dim=-1, keepdim=True) * unmask` —
the per-head losses of a row are averaged (not summed) before masking. -/
def td3_td_error_per (crit : ℚ → ℚ → ℚ)
    (q_values : List Vec) (q_label unmask : List ℚ) : List ℚ :=
  List.zipWith (· * ·)
    ((td3_head_losses crit q_values q_label).map listMean)
    unmask

/-- Written from the spec sentence "For ensemble/twin critics the per-head
losses are summed before masking/weighting": given the per-row lists of
per-head criterion values, sum each row across heads, then apply the
`unmask` mask (importance weights, when present, are applied after this). -/
def specSumHeadsThenMask (head_losses : List Vec) (unmask : List ℚ) : List ℚ :=
  List.zipWith (· * ·) (head_losses.map List.sum) unmask

namespace AgentDQN

/-- Embeds `AgentDQN._update_objectives_raw` (also used unchanged by
`AgentDuelingDQN`, which only swaps the module class). The leading
`assert isinstance(update_t, int)` is the `match` on `update_t`: a
non-integer value produces an error before anything else runs.
`criTarget`/`cri` are the target and live module forward passes, `crit` the
elementwise criterion, `gamma` the discount. Returns
`((obj_critic, obj_actor), effects)` on success. -/
def updateObjectivesRaw (gamma : ℚ) (crit : ℚ → ℚ → ℚ)
    (criTarget cri : Vec → Vec) (update_t : PyVal)
    (state : List Vec) (action : List ℕ)
    (reward undone unmask : List ℚ) (next_state : List Vec) :
    Except String ((ℚ × ℚ) × UpdateEffects) :=
  match update_t with
  | .float _ => .error "AssertionError: isinstance(update_t, int)"
  | .int _ =>
    let next_q := dqn_next_q criTarget next_state
    let q_label := dqn_q_label gamma reward undone next_q
    let q_value := List.zipWith (fun s a => (cri s).getD a 0) state action
    let obj_critic :=
      listMean (List.zipWith (· * ·) (List.zipWith crit q_value q_label) unmask)
    let obj_actor := listMean q_value
    .ok ((obj_critic, obj_actor), ⟨true, true, false, false, none⟩)

/-- Embeds `AgentDQN._update_objectives_per` (prioritized replay): the
per-sample error `td_error = criterion(q_value, q_label) * unmask` is
importance-weighted into the objective and reported back to the buffer. -/
def updateObjectivesPer (gamma : ℚ) (crit : ℚ → ℚ → ℚ)
    (criTarget cri : Vec → Vec) (update_t : PyVal)
    (state : List Vec) (action : List ℕ)
    (reward undone unmask : List ℚ) (next_state : List Vec)
    (is_weight : List ℚ) (is_index : List ℕ) :
    Except String ((ℚ × ℚ) × UpdateEffects) :=
  match update_t with
  | .float _ => .error "AssertionError: isinstance(update_t, int)"
  | .int _ =>
    let next_q := dqn_next_q criTarget next_state
    let q_label := dqn_q_label gamma reward undone next_q
    let q_value := List.zipWith (fun s a => (cri s).getD a 0) state action
    let td_error :=
      List.zipWith (· * ·) (List.zipWith crit q_value q_label) unmask
    let obj_critic := listMean (List.zipWith (· * ·) td_error is_weight)
    let obj_actor := listMean q_value
    .ok ((obj_critic, obj_actor), ⟨true, true, false, false, some (is_index, td_error)⟩)

end AgentDQN

namespace AgentDoubleDQN

/-- Embeds `AgentDoubleDQN._update_objectives_raw` (also used unchanged by
`AgentD3QN`, which only swaps the module class). `getQ1Q2T`/`getQ1Q2` are the
target and live modules' `get_q1_q2`. -/
def updateObjectivesRaw (gamma : ℚ) (crit : ℚ → ℚ → ℚ)
    (getQ1Q2T getQ1Q2 : Vec → Vec × Vec) (update_t : PyVal)
    (state : List Vec) (action : List ℕ)
    (reward undone unmask : List ℚ) (next_state : List Vec) :
    Except String ((ℚ × ℚ) × UpdateEffects) :=
  match update_t with
  | .float _ => .error "AssertionError: isinstance(update_t, int)"
  | .int _ =>
    let next_q := ddqn_next_q getQ1Q2T next_state
    let q_label := ddqn_q_label gamma reward undone next_q
    let q_value1 := List.zipWith (fun s a => ((getQ1Q2 s).1).getD a 0) state action
    let q_value2 := List.zipWith (fun s a => ((getQ1Q2 s).2).getD a 0) state action
    let obj_critic := listMean (ddqn_td_error crit q_value1 q_value2 q_label unmask)
    let obj_actor := listMean q_value1
    .ok ((obj_critic, obj_actor), ⟨true, true, false, false, none⟩)

/-- Embeds `AgentDoubleDQN._update_objectives_per`:
`td_error = (criterion(q_value1, q_label) + criterion(q_value2, q_label)) * unmask`,
importance-weighted into the objective and reported back to the buffer. -/
def updateObjectivesPer (gamma : ℚ) (crit : ℚ → ℚ → ℚ)
    (getQ1Q2T getQ1Q2 : Vec → Vec × Vec) (update_t : PyVal)
    (state : List Vec) (action : List ℕ)
    (reward undone unmask : List ℚ) (next_state : List Vec)
    (is_weight : List ℚ) (is_index : List ℕ) :
    Except String ((ℚ × ℚ) × UpdateEffects) :=
  match update_t with
  | .float _ => .error "AssertionError: isinstance(update_t, int)"
  | .int _ =>
    let next_q := ddqn_next_q getQ1Q2T next_state
    let q_label := ddqn_q_label gamma reward undone next_q
    let q_value1 := List.zipWith (fun s a => ((getQ1Q2 s).1).getD a 0) state action
    let q_value2 := List.zipWith (fun s a => ((getQ1Q2 s).2).getD a 0) state action
    let td_error := ddqn_td_error crit q_value1 q_value2 q_label unmask
    let obj_critic := listMean (List.zipWith (· * ·) td_error is_weight)
    let obj_actor := listMean q_value1
    .ok ((obj_critic, obj_actor), ⟨true, true, false, false, some (is_index, td_error)⟩)

end AgentDoubleDQN

namespace AgentTD3

/-- Embeds `AgentTD3._update_objectives_raw`. `actGetActionNoisy` is
`self.act.get_action(·, action_std=self.policy_noise_std)` with its Gaussian
sample absorbed (the noise is irrelevant to the verified claims),
`criTargetQs`/`criQs` are target/live `CriticTwin.get_q_values`,
`criForward` is `self.cri(state, action)` and `actForward` is `self.act(state)`.
The actor branch runs only when `update_t % update_freq == 0`; otherwise the
actor objective is the `th.nan` sentinel, modelled as `none`. -/
def updateObjectivesRaw (gamma : ℚ) (crit : ℚ → ℚ → ℚ) (update_freq : ℤ)
    (actGetActionNoisy : Vec → Vec) (criTargetQs criQs : Vec → Vec → Vec)
    (criForward : Vec → Vec → ℚ) (actForward : Vec → Vec)
    (update_t : PyVal) (state action : List Vec)
    (reward undone unmask : List ℚ) (next_state : List Vec) :
    Except String ((ℚ × Option ℚ) × UpdateEffects) :=
  match update_t with
  | .float _ => .error "AssertionError: isinstance(update_t, int)"
  | .int t =>
    let next_action := next_state.map actGetActionNoisy
    let next_q := td3_next_q criTargetQs next_state next_action
    let q_label := td3_q_label gamma reward undone next_q
    let q_values := List.zipWith criQs state action
    let obj_critic := td3_obj_critic_raw crit q_values q_label unmask
    if t % update_freq = 0 then
      let obj_actor := listMean (state.map (fun s => criForward s (actForward s)))
      .ok ((obj_critic, some obj_actor), ⟨true, true, true, true, none⟩)
    else
      .ok ((obj_critic, none), ⟨true, true, false, false, none⟩)

/-- Embeds `AgentTD3._update_objectives_per`: the per-sample error averages
the per-head losses (`.mean(dim=-1, keepdim=True)`), masks, weights, and is
reported back to the buffer; same delayed actor branch as the raw update. -/
def updateObjectivesPer (gamma : ℚ) (crit : ℚ → ℚ → ℚ) (update_freq : ℤ)
    (actGetActionNoisy : Vec → Vec) (criTargetQs criQs : Vec → Vec → Vec)
    (criForward : Vec → Vec → ℚ) (actForward : Vec → Vec)
    (update_t : PyVal) (state action : List Vec)
    (reward undone unmask : List ℚ) (next_state : List Vec)
    (is_weight : List ℚ) (is_index : List ℕ) :
    Except String ((ℚ × Option ℚ) × UpdateEffects) :=
  match update_t with
  | .float _ => .error "AssertionError: isinstance(update_t, int)"
  | .int t =>
    let next_action := next_state.map actGetActionNoisy
    let next_q := td3_next_q criTargetQs next_state next_action
    let q_label := td3_q_label gamma reward undone next_q
    let q_values := List.zipWith criQs state action
    let td_error := td3_td_error_per crit q_values q_label unmask
    let obj_critic := listMean (List.zipWith (· * ·) td_error is_weight)
    if t % update_freq = 0 then
      let obj_actor := listMean (state.map (fun s => criForward s (actForward s)))
      .ok ((obj_critic, some obj_actor),
        ⟨true, true, true, true, some (is_index, td_error)⟩)
    else
      .ok ((obj_critic, none),
        ⟨true, true, false, false, some (is_index, td_error)⟩)

/-- Actor objective reported by a TD3 update result (`none` both for the
`th.nan` sentinel of a skipped actor step and for a rejected call). -/
def actorObj (res : Except String ((ℚ × Option ℚ) × UpdateEffects)) : Option ℚ :=
  match res with
  | .ok ((_, oa), _) => oa
  | .error _ => none

/-- Whether a TD3 update result performed an actor gradient step. -/
def actorStepped (res : Except String ((ℚ × Option ℚ) × UpdateEffects)) : Bool :=
  match res with
  | .ok (_, eff) => eff.actorStepped
  | .error _ => false

end AgentTD3

/-! Helper lemmas about `listMax`, `listMin` and `listMean`. -/

lemma le_foldl_max (x : ℚ) (xs : List ℚ) : x ≤ xs.foldl max x := by
  induction xs generalizing x with
  | nil => exact le_refl x
  | cons y ys ih =>
    exact le_trans (le_max_left x y) (ih (max x y))

lemma mem_le_foldl_max {a : ℚ} {xs : List ℚ} (x : ℚ) (h : a ∈ xs) :
    a ≤ xs.foldl max x := by
  induction xs generalizing x with
  | nil => cases h
  | cons y ys ih =>
    rcases List.mem_cons.mp h with rfl | hmem
    · exact le_trans (le_max_right x a) (le_foldl_max _ ys)
    · exact ih (max x y) hmem

lemma foldl_max_mem (x : ℚ) (xs : List ℚ) : xs.foldl max x ∈ x :: xs := by
  induction xs generalizing x with
  | nil => simp [List.foldl]
  | cons y ys ih =>
    have h := ih (max x y)
    have hunfold : List.foldl max x (y :: ys) = List.foldl max (max x y) ys := rfl
    rcases List.mem_cons.mp h with heq | hmem
    · rw [hunfold, heq]
      rcases max_choice x y with hx | hy
      · rw [hx]; exact List.mem_cons_self _ _
      · rw [hy]; exact List.mem_cons_of_mem _ (List.mem_cons_self _ _)
    · rw [hunfold]
      exact List.mem_cons_of_mem _ (List.mem_cons_of_mem _ hmem)

lemma le_listMax {a : ℚ} {l : List ℚ} (h : a ∈ l) : a ≤ listMax l := by
  cases l with
  | nil => cases h
  | cons x xs =>
    rcases List.mem_cons.mp h with rfl | hmem
    · exact le_foldl_max a xs
    · exact mem_le_foldl_max x hmem

lemma listMax_mem {l : List ℚ} (h : l ≠ []) : listMax l ∈ l := by
  cases l with
  | nil => exact absurd rfl h
  | cons x xs => exact foldl_max_mem x xs

lemma foldl_min_le (x : ℚ) (xs : List ℚ) : xs.foldl min x ≤ x := by
  induction xs generalizing x with
  | nil => exact le_refl x
  | cons y ys ih =>
    exact le_trans (ih (min x y)) (min_le_left x y)

lemma foldl_min_le_mem {a : ℚ} {xs : List ℚ} (x : ℚ) (h : a ∈ xs) :
    xs.foldl min x ≤ a := by
  induction xs generalizing x with
  | nil => cases h
  | cons y ys ih =>
    rcases List.mem_cons.mp h with rfl | hmem
    · exact le_trans (foldl_min_le _ ys) (min_le_right x a)
    · exact ih (min x y) hmem

lemma foldl_min_mem (x : ℚ) (xs : List ℚ) : xs.foldl min x ∈ x :: xs := by
  induction xs generalizing x with
  | nil => simp [List.foldl]
  | cons y ys ih =>
    have h := ih (min x y)
    have hunfold : List.foldl min x (y :: ys) = List.foldl min (min x y) ys := rfl
    rcases List.mem_cons.mp h with heq | hmem
    · rw [hunfold, heq]
      rcases min_choice x y with hx | hy
      · rw [hx]; exact List.mem_cons_self _ _
      · rw [hy]; exact List.mem_cons_of_mem _ (List.mem_cons_self _ _)
    · rw [hunfold]
      exact List.mem_cons_of_mem _ (List.mem_cons_of_mem _ hmem)

lemma listMin_le {a : ℚ} {l : List ℚ} (h : a ∈ l) : listMin l ≤ a := by
  cases l with
  | nil => cases h
  | cons x xs =>
    rcases List.mem_cons.mp h with rfl | hmem
    · exact foldl_min_le a xs
    · exact foldl_min_le_mem x hmem

lemma listMin_mem {l : List ℚ} (h : l ≠ []) : listMin l ∈ l := by
  cases l with
  | nil => exact absurd rfl h
  | cons x xs => exact foldl_min_mem x xs

/-- The max of the elementwise min of two equal-length nonempty lists is at
most the max of the first list. -/
lemma listMax_zipWith_min_le_left {q1 q2 : List ℚ}
    (hne : q1 ≠ []) (hlen : q1.length = q2.length) :
    listMax (List.zipWith min q1 q2) ≤ listMax q1 := by
  have hzne : List.zipWith min q1 q2 ≠ [] := by
    cases q1 with
    | nil => exact absurd rfl hne
    | cons x xs =>
      cases q2 with
      | nil => simp at hlen
      | cons y ys => simp [List.zipWith]
  obtain ⟨i, hi, hget⟩ := List.mem_iff_getElem.mp (listMax_mem hzne)
  have hi1 : i < q1.length := by
    simpa [List.length_zipWith, hlen, Nat.lt_min] using hi
  have hi2 : i < q2.length := by
    simpa [List.length_zipWith, hlen, Nat.lt_min] using hi
  have : (List.zipWith min q1 q2)[i] = min (q1[i]) (q2[i]) :=
    List.getElem_zipWith ..
  calc listMax (List.zipWith min q1 q2)
      = min (q1[i]) (q2[i]) := by rw [← hget, this]
    _ ≤ q1[i] := min_le_left _ _
    _ ≤ listMax q1 := le_listMax (List.getElem_mem ..)

/-- The max of the elementwise min of two equal-length nonempty lists is at
most the max of the second list. -/
lemma listMax_zipWith_min_le_right {q1 q2 : List ℚ}
    (hne : q1 ≠ []) (hlen : q1.length = q2.length) :
    listMax (List.zipWith min q1 q2) ≤ listMax q2 := by
  have hzne : List.zipWith min q1 q2 ≠ [] := by
    cases q1 with
    | nil => exact absurd rfl hne
    | cons x xs =>
      cases q2 with
      | nil => simp at hlen
      | cons y ys => simp [List.zipWith]
  obtain ⟨i, hi, hget⟩ := List.mem_iff_getElem.mp (listMax_mem hzne)
  have hi1 : i < q1.length := by
    simpa [List.length_zipWith, hlen, Nat.lt_min] using hi
  have hi2 : i < q2.length := by
    simpa [List.length_zipWith, hlen, Nat.lt_min] using hi
  have : (List.zipWith min q1 q2)[i] = min (q1[i]) (q2[i]) :=
    List.getElem_zipWith ..
  calc listMax (List.zipWith min q1 q2)
      = min (q1[i]) (q2[i]) := by rw [← hget, this]
    _ ≤ q2[i] := min_le_right _ _
    _ ≤ listMax q2 := le_listMax (List.getElem_mem ..)

lemma zip3With_length (f : α → β → γ → δ) (as : List α) (bs : List β) (cs : List γ) :
    (zip3With f as bs cs).length = min as.length (min bs.length cs.length) := by
  induction as generalizing bs cs with
  | nil => simp [zip3With]
  | cons a as ih =>
    cases bs with
    | nil => simp [zip3With]
    | cons b bs =>
      cases cs with
      | nil => simp [zip3With]
      | cons c cs =>
        simp [zip3With, ih, Nat.succ_min_succ]

lemma zip3With_getElem (f : α → β → γ → δ) (as : List α) (bs : List β) (cs : List γ)
    (i : ℕ) (ha : i < as.length) (hb : i < bs.length) (hc : i < cs.length)
    (hz : i < (zip3With f as bs cs).length) :
    (zip3With f as bs cs)[i] = f (as[i]) (bs[i]) (cs[i]) := by
  induction as generalizing bs cs i with
  | nil => cases ha
  | cons a as ih =>
    cases bs with
    | nil => cases hb
    | cons b bs =>
      cases cs with
      | nil => cases hc
      | cons c cs =>
        cases i with
        | zero => rfl
        | succ n =>
          have hz' : n < (zip3With f as bs cs).length := by
            simpa [zip3With] using hz
          simpa [zip3With] using
            ih bs cs n (Nat.lt_of_succ_lt_succ ha) (Nat.lt_of_succ_lt_succ hb)
              (Nat.lt_of_succ_lt_succ hc) hz'

lemma zip3With_getD (f : ℚ → ℚ → ℚ → ℚ) (as bs cs : List ℚ)
    (i : ℕ) (ha : i < as.length) (hb : i < bs.length) (hc : i < cs.length) :
    (zip3With f as bs cs).getD i 0 = f (as[i]) (bs[i]) (cs[i]) := by
  have hz : i < (zip3With f as bs cs).length := by
    rw [zip3With_length]
    exact lt_min ha (lt_min hb hc)
  rw [List.getD_eq_getElem _ _ hz]
  exact zip3With_getElem f as bs cs i ha hb hc hz

/-! Claim theorems. -/

/-- Claim C1: for every transition batch and every agent variant (DQN, Double DQN,
Dueling DQN, D3QN, TD3 — Dueling DQN inherits `AgentDQN`'s update routine and
D3QN inherits `AgentDoubleDQN`'s), the regression target of row `i` equals
`reward + undone * gamma * next_q`, and in particular on every row with
`undone = 0` it equals that row's reward exactly, the bootstrap term zeroed. -/
theorem C1_regression_target (gamma : ℚ) (reward undone next_q : List ℚ) (i : ℕ)
    (h1 : i < reward.length) (h2 : i < undone.length) (h3 : i < next_q.length) :
    ((dqn_q_label gamma reward undone next_q).getD i 0
        = reward[i] + undone[i] * gamma * next_q[i]
      ∧ (ddqn_q_label gamma reward undone next_q).getD i 0
        = reward[i] + undone[i] * gamma * next_q[i]
      ∧ (td3_q_label gamma reward undone next_q).getD i 0
        = reward[i] + undone[i] * gamma * next_q[i])
    ∧ (undone[i] = 0 →
      (dqn_q_label gamma reward undone next_q).getD i 0 = reward[i]
      ∧ (ddqn_q_label gamma reward undone next_q).getD i 0 = reward[i]
      ∧ (td3_q_label gamma reward undone next_q).getD i 0 = reward[i]) := by
  have hd : (dqn_q_label gamma reward undone next_q).getD i 0
      = reward[i] + undone[i] * gamma * next_q[i] :=
    zip3With_getD _ reward undone next_q i h1 h2 h3
  have hdd : (ddqn_q_label gamma reward undone next_q).getD i 0
      = reward[i] + undone[i] * gamma * next_q[i] :=
    zip3With_getD _ reward undone next_q i h1 h2 h3
  have ht : (td3_q_label gamma reward undone next_q).getD i 0
      = reward[i] + undone[i] * gamma * next_q[i] :=
    zip3With_getD _ reward undone next_q i h1 h2 h3
  refine ⟨⟨hd, hdd, ht⟩, fun hu => ?_⟩
  rw [hd, hdd, ht, hu]
  norm_num

/-- Witness for C1 at a concrete terminal transition (`undone = 0`,
`reward = 5`, `gamma = 99/100`, `next_q = 7`): the target is exactly 5 for
all three target computations. -/
theorem C1_regression_target_witness :
    (dqn_q_label (99/100) [5] [0] [7]).getD 0 0 = 5
    ∧ (ddqn_q_label (99/100) [5] [0] [7]).getD 0 0 = 5
    ∧ (td3_q_label (99/100) [5] [0] [7]).getD 0 0 = 5 := by
  have h := (C1_regression_target (99/100) [5] [0] [7] 0
    (by decide) (by decide) (by decide)).2
  simpa using h (by norm_num)

/-- Claim C2: in the double/twin discrete variants (Double DQN, D3QN) the
next-state value of batch row `b` is the maximum over actions of the
elementwise minimum of the two target estimators: it is an upper bound of
`min (Q1 a) (Q2 a)` over all actions `a` and is attained at some action — and
it is not the quantity `min (max Q1) (max Q2)`, from which it differs at a
concrete input (final conjunct). -/
theorem C2_min_before_max (getQ1Q2 : Vec → Vec × Vec) (next_state : List Vec)
    (b : ℕ) (hb : b < next_state.length)
    (hne : (getQ1Q2 next_state[b]).1 ≠ [])
    (hlen : (getQ1Q2 next_state[b]).1.length = (getQ1Q2 next_state[b]).2.length) :
    (∀ (i : ℕ) (hi1 : i < (getQ1Q2 next_state[b]).1.length)
        (hi2 : i < (getQ1Q2 next_state[b]).2.length),
      min ((getQ1Q2 next_state[b]).1[i]) ((getQ1Q2 next_state[b]).2[i])
        ≤ (ddqn_next_q getQ1Q2 next_state).getD b 0)
    ∧ (∃ (i : ℕ) (hi1 : i < (getQ1Q2 next_state[b]).1.length)
        (hi2 : i < (getQ1Q2 next_state[b]).2.length),
      (ddqn_next_q getQ1Q2 next_state).getD b 0
        = min ((getQ1Q2 next_state[b]).1[i]) ((getQ1Q2 next_state[b]).2[i]))
    ∧ (ddqn_next_q (fun _ => ([0, 1], [1, 0])) [[]]).getD 0 0
        ≠ min (listMax [0, 1]) (listMax [1, 0]) := by
  have hblen : b < (next_state.map
      (fun ns => listMax (List.zipWith min (getQ1Q2 ns).1 (getQ1Q2 ns).2))).length := by
    simpa using hb
  have hval : (ddqn_next_q getQ1Q2 next_state).getD b 0
      = listMax (List.zipWith min (getQ1Q2 next_state[b]).1 (getQ1Q2 next_state[b]).2) := by
    unfold ddqn_next_q
    rw [List.getD_eq_getElem _ _ hblen, List.getElem_map]
  refine ⟨?_, ?_, ?_⟩
  · intro i hi1 hi2
    rw [hval]
    have hiz : i < (List.zipWith min (getQ1Q2 next_state[b]).1
        (getQ1Q2 next_state[b]).2).length := by
      rw [List.length_zipWith]
      exact lt_min hi1 hi2
    have hget : (List.zipWith min (getQ1Q2 next_state[b]).1
        (getQ1Q2 next_state[b]).2)[i]
        = min ((getQ1Q2 next_state[b]).1[i]) ((getQ1Q2 next_state[b]).2[i]) :=
      List.getElem_zipWith ..
    exact hget ▸ le_listMax (List.getElem_mem ..)
  · rw [hval]
    have hzne : List.zipWith min (getQ1Q2 next_state[b]).1
        (getQ1Q2 next_state[b]).2 ≠ [] := by
      intro hcontra
      have := congrArg List.length hcontra
      rw [List.length_zipWith, ← hlen, min_self, List.length_nil] at this
      exact hne (List.length_eq_zero.mp this)
    obtain ⟨i, hi, hget⟩ := List.mem_iff_getElem.mp (listMax_mem hzne)
    have hi1 : i < (getQ1Q2 next_state[b]).1.length := by
      rw [List.length_zipWith] at hi
      exact lt_of_lt_of_le hi (min_le_left _ _)
    have hi2 : i < (getQ1Q2 next_state[b]).2.length := by
      rw [List.length_zipWith] at hi
      exact lt_of_lt_of_le hi (min_le_right _ _)
    refine ⟨i, hi1, hi2, ?_⟩
    rw [← hget]
    exact List.getElem_zipWith ..
  · decide

/-- Witness for C2 at a concrete input: two target estimators valued
`[0, 1]` and `[1, 0]` at the single next state; every per-action minimum is
bounded by the computed next-state value. -/
theorem C2_min_before_max_witness :
    min ((0 : ℚ)) 1 ≤ (ddqn_next_q (fun _ => ([0, 1], [1, 0])) [[]]).getD 0 0 := by
  have h := C2_min_before_max (fun _ => ([0, 1], [1, 0])) [[]] 0
    (by decide) (by decide) (by decide)
  simpa using h.1 0 (by decide) (by decide)

lemma target_mono {r u gamma m m' : ℚ}
    (hu : u = 0 ∨ u = 1) (hg0 : 0 ≤ gamma) (hm : m ≤ m') :
    r + u * gamma * m ≤ r + u * gamma * m' := by
  rcases hu with rfl | rfl
  · simp
  · simpa using mul_le_mul_of_nonneg_left hm hg0

/-- Claim C8: for an identical sampled row (`reward`, `undone`) with `gamma ∈ [0, 1]`
and `undone ∈ {0, 1}`, the twin-minimum based regression target never exceeds
the target built from either single estimator alone: for the discrete twin
variants the `max-min` next value is dominated by each estimator's own max,
and for the TD3 ensemble the `min`-over-heads next value is dominated by every
individual head value. -/
theorem C8_min_target_le_single (reward undone gamma : ℚ) (q1 q2 qs : List ℚ)
    (hg0 : 0 ≤ gamma) (_hg1 : gamma ≤ 1) (hu : undone = 0 ∨ undone = 1)
    (hne : q1 ≠ []) (hlen : q1.length = q2.length) :
    ((ddqn_q_label gamma [reward] [undone]
        (ddqn_next_q (fun _ => (q1, q2)) [[]])).getD 0 0
      ≤ (ddqn_q_label gamma [reward] [undone] [listMax q1]).getD 0 0
    ∧ (ddqn_q_label gamma [reward] [undone]
        (ddqn_next_q (fun _ => (q1, q2)) [[]])).getD 0 0
      ≤ (ddqn_q_label gamma [reward] [undone] [listMax q2]).getD 0 0)
    ∧ ∀ (k : ℕ) (hk : k < qs.length),
      (td3_q_label gamma [reward] [undone]
        (td3_next_q (fun _ _ => qs) [[]] [[]])).getD 0 0
      ≤ (td3_q_label gamma [reward] [undone] [qs[k]]).getD 0 0 := by
  have hdd : ddqn_next_q (fun _ => (q1, q2)) ([[]] : List Vec)
      = [listMax (List.zipWith min q1 q2)] := rfl
  have htd : td3_next_q (fun _ _ => qs) ([[]] : List Vec) ([[]] : List Vec)
      = [listMin qs] := rfl
  refine ⟨⟨?_, ?_⟩, ?_⟩
  · rw [hdd]
    simp only [ddqn_q_label, zip3With, List.getD_cons_zero]
    exact target_mono hu hg0 (listMax_zipWith_min_le_left hne hlen)
  · rw [hdd]
    simp only [ddqn_q_label, zip3With, List.getD_cons_zero]
    exact target_mono hu hg0 (listMax_zipWith_min_le_right hne hlen)
  · intro k hk
    rw [htd]
    simp only [td3_q_label, zip3With, List.getD_cons_zero]
    exact target_mono hu hg0 (listMin_le (List.getElem_mem ..))

/-- Witness for C8 at a concrete batch row: `reward = 1`, `undone = 1`,
`gamma = 1/2`, discrete estimators `[0, 1]` and `[1, 0]`, TD3 ensemble
`[3, 4]`. -/
theorem C8_min_target_le_single_witness :
    (ddqn_q_label (1/2) [1] [1] (ddqn_next_q (fun _ => ([0, 1], [1, 0])) [[]])).getD 0 0
      ≤ (ddqn_q_label (1/2) [1] [1] [listMax [0, 1]]).getD 0 0
    ∧ (td3_q_label (1/2) [1] [1] (td3_next_q (fun _ _ => [3, 4]) [[]] [[]])).getD 0 0
      ≤ (td3_q_label (1/2) [1] [1] [(3 : ℚ)]).getD 0 0 := by
  have h := C8_min_target_le_single 1 1 (1/2) [0, 1] [1, 0] [3, 4]
    (by norm_num) (by norm_num) (Or.inr rfl) (by decide) (by decide)
  refine ⟨h.1.1, ?_⟩
  simpa using h.2 0 (by decide)

lemma duelCombine_getD {l : List ℚ} {i : ℕ} (hi : i < l.length) (a : ℚ) :
    (duelCombine l a).getD i 0 = l[i] - listMean l + a := by
  unfold duelCombine
  rw [List.getD_eq_getElem _ _ (by simpa using hi), List.getElem_map]

/-- Claim C4 counterexample: the claim that the action-wise differences of the
dueling combination depend only on the advantage head's output is false —
with the advantage-head output fixed at 0, changing only the value-head
output from `[0, 1]` to `[0, 2]` changes the difference between actions 1
and 0 (from 1 to 2). In the source the `net_adv` head has output dimension 1
and is broadcast, so it cancels from every action-wise difference. -/
theorem C4_counterexample :
    ¬ ∀ (q_val q_val' : Vec) (q_adv : ℚ) (i j : ℕ),
      (duelCombine q_val q_adv).getD i 0 - (duelCombine q_val q_adv).getD j 0
        = (duelCombine q_val' q_adv).getD i 0 - (duelCombine q_val' q_adv).getD j 0 := by
  intro h
  have hc := h [0, 1] [0, 2] 0 1 0
  norm_num [duelCombine, listMean, List.getD] at hc

/-- Claim C4 amended: for fixed head outputs, the action-wise differences of the
dueling combination `val - mean(val) + adv` depend only on the per-action
`net_val` head's output, while the scalar `net_adv` head contributes only a
uniform per-row offset (the heads play the roles the claim attributes to
each other: `net_adv` has output dimension 1 and broadcasts, `net_val` is
per-action). The final two conjuncts record that `QNetDuel.forward` and both
heads of `QNetTwinDuel.get_q1_q2` are exactly this combination applied to
their heads' outputs on the shared encoding. -/
theorem C4_amended (q_val : Vec) (q_adv : ℚ) (i j : ℕ)
    (hi : i < q_val.length) (hj : j < q_val.length) :
    ((duelCombine q_val q_adv).getD i 0 - (duelCombine q_val q_adv).getD j 0
      = q_val[i] - q_val[j])
    ∧ (∀ q_adv' : ℚ,
      (duelCombine q_val q_adv').getD i 0 - (duelCombine q_val q_adv).getD i 0
        = q_adv' - q_adv)
    ∧ (∀ (net_state net_val : Vec → Vec) (net_adv : Vec → ℚ) (avg std s : Vec),
      QNetDuel.forward net_state net_val net_adv avg std s
        = duelCombine (net_val (net_state (stateNorm avg std s)))
            (net_adv (net_state (stateNorm avg std s))))
    ∧ (∀ (ns v1 v2 : Vec → Vec) (a1 a2 : Vec → ℚ) (avg std s : Vec),
      QNetTwinDuel.get_q1_q2 ns v1 v2 a1 a2 avg std s
        = (duelCombine (v1 (ns (stateNorm avg std s))) (a1 (ns (stateNorm avg std s))),
           duelCombine (v2 (ns (stateNorm avg std s))) (a2 (ns (stateNorm avg std s))))) := by
  refine ⟨?_, ?_, fun _ _ _ _ _ _ => rfl, fun _ _ _ _ _ _ _ _ => rfl⟩
  · rw [duelCombine_getD hi, duelCombine_getD hj]
    ring
  · intro q_adv'
    rw [duelCombine_getD hi, duelCombine_getD hi]
    ring

/-- Witness for C4 amended at the concrete row `q_val = [0, 1]`,
`q_adv = 3`: the difference between actions 1 and 0 equals the value-head
difference `1 - 0`, untouched by the advantage offset. -/
theorem C4_amended_witness :
    (duelCombine [0, 1] 3).getD 1 0 - (duelCombine [0, 1] 3).getD 0 0 = 1 - 0 := by
  have h := (C4_amended [0, 1] 3 1 0 (by decide) (by decide)).1
  simpa using h

/-- Concrete ensemble net for the C5 failing input: both heads return the
first coordinate of the concatenated (state, action) input. -/
def c5net : Vec → Vec := fun xs => [xs.headD 0, xs.headD 0]

/-- Concrete `CriticTwin` for the C5 failing input: nontrivial normalization
statistics `state_avg = [0]`, `state_std = [2]`. -/
def c5critic : CriticTwin := ⟨c5net, [0], [2]⟩

/-- Claim C5: evaluation of `CriticTwin` at the failing input `state = [4]`,
`action = [0]` with `state_std = [2]`. Because `forward` normalizes the state
and then calls `get_q_values`, which normalizes it again, `forward` returns 1
while the mean across the ensemble of `get_q_values(state, action)` is 2 —
the claim (and the spec's "canonical value = mean across the ensemble") fails
whenever the normalization is not idempotent. The ensemble heads here are
identical, so the ensemble-min target value (2) also differs from the
mean-based forward value (1), refuting the claim's second part as well. -/
theorem C5_forward_double_normalization :
    CriticTwin.get_q_values c5critic [4] [0] = [2, 2]
    ∧ listMean (CriticTwin.get_q_values c5critic [4] [0]) = 2
    ∧ listMin (CriticTwin.get_q_values c5critic [4] [0]) = 2
    ∧ CriticTwin.forward c5critic [4] [0] = 1
    ∧ CriticTwin.forward c5critic [4] [0]
      ≠ listMean (CriticTwin.get_q_values c5critic [4] [0]) := by
  have hq : CriticTwin.get_q_values c5critic [4] [0] = [2, 2] := by
    norm_num [CriticTwin.get_q_values, c5critic, c5net, stateNorm, zip3With]
  have hf : CriticTwin.forward c5critic [4] [0] = 1 := by
    norm_num [CriticTwin.forward, CriticTwin.get_q_values, c5critic, c5net,
      stateNorm, zip3With, listMean]
  refine ⟨hq, ?_, ?_, hf, ?_⟩
  · rw [hq]; norm_num [listMean]
  · rw [hq]; norm_num [listMin]
  · rw [hq, hf]; norm_num [listMean]

/-- Any window of `N` consecutive integers contains exactly one point where
`t % N = 0`. -/
lemma existsUnique_emod_eq_zero_Ico (N t0 : ℤ) (hN : 0 < N) :
    ∃! t : ℤ, t ∈ Finset.Ico t0 (t0 + N) ∧ t % N = 0 := by
  have hNne : N ≠ 0 := ne_of_gt hN
  refine ⟨t0 + (-t0) % N, ⟨?_, ?_⟩, ?_⟩
  · rw [Finset.mem_Ico]
    constructor
    · have := Int.emod_nonneg (-t0) hNne
      omega
    · have := Int.emod_lt_of_pos (-t0) hN
      omega
  · have hdef : (-t0) % N = -t0 - N * ((-t0) / N) := Int.emod_def (-t0) N
    have : t0 + (-t0) % N = N * (-((-t0) / N)) := by rw [hdef]; ring
    rw [this]
    exact Int.mul_emod_right N _
  · rintro y ⟨hy, hymod⟩
    rw [Finset.mem_Ico] at hy
    have hx0 : t0 ≤ t0 + (-t0) % N := by
      have := Int.emod_nonneg (-t0) hNne
      omega
    have hx1 : t0 + (-t0) % N < t0 + N := by
      have := Int.emod_lt_of_pos (-t0) hN
      omega
    have hxmod : (t0 + (-t0) % N) % N = 0 := by
      have hdef : (-t0) % N = -t0 - N * ((-t0) / N) := Int.emod_def (-t0) N
      have : t0 + (-t0) % N = N * (-((-t0) / N)) := by rw [hdef]; ring
      rw [this]
      exact Int.mul_emod_right N _
    have hdvd : N ∣ y - (t0 + (-t0) % N) :=
      dvd_sub (Int.dvd_of_emod_eq_zero hymod) (Int.dvd_of_emod_eq_zero hxmod)
    have habs : (y - (t0 + (-t0) % N)).natAbs < N.natAbs := by omega
    have := Int.eq_zero_of_dvd_of_natAbs_lt_natAbs hdvd habs
    omega

/-- Claim C6: for TD3 with `update_freq = N > 0`, across any `N` consecutive integer
`update_t` values exactly one step performs an actor update, and on every
step (raw and prioritized variants alike) the actor step happens exactly when
`update_t % N = 0`, the reported actor objective is defined (`some`) exactly
when the actor stepped, and is the `th.nan` sentinel (`none`) otherwise. -/
theorem C6_delayed_actor_update (gamma : ℚ) (crit : ℚ → ℚ → ℚ) (N : ℤ)
    (actGA : Vec → Vec) (criTQs criQs : Vec → Vec → Vec)
    (criF : Vec → Vec → ℚ) (actF : Vec → Vec)
    (state action : List Vec) (reward undone unmask : List ℚ)
    (next_state : List Vec) (is_weight : List ℚ) (is_index : List ℕ)
    (t0 : ℤ) (hN : 0 < N) :
    (∃! t : ℤ, t ∈ Finset.Ico t0 (t0 + N) ∧
      AgentTD3.actorStepped (AgentTD3.updateObjectivesRaw gamma crit N actGA
        criTQs criQs criF actF (.int t) state action reward undone unmask
        next_state) = true)
    ∧ (∀ t : ℤ,
      (AgentTD3.actorStepped (AgentTD3.updateObjectivesRaw gamma crit N actGA
          criTQs criQs criF actF (.int t) state action reward undone unmask
          next_state) = true ↔ t % N = 0)
      ∧ ((AgentTD3.actorObj (AgentTD3.updateObjectivesRaw gamma crit N actGA
          criTQs criQs criF actF (.int t) state action reward undone unmask
          next_state)).isSome
        = AgentTD3.actorStepped (AgentTD3.updateObjectivesRaw gamma crit N actGA
          criTQs criQs criF actF (.int t) state action reward undone unmask
          next_state))
      ∧ (AgentTD3.actorStepped (AgentTD3.updateObjectivesPer gamma crit N actGA
          criTQs criQs criF actF (.int t) state action reward undone unmask
          next_state is_weight is_index) = true ↔ t % N = 0)
      ∧ ((AgentTD3.actorObj (AgentTD3.updateObjectivesPer gamma crit N actGA
          criTQs criQs criF actF (.int t) state action reward undone unmask
          next_state is_weight is_index)).isSome
        = AgentTD3.actorStepped (AgentTD3.updateObjectivesPer gamma crit N actGA
          criTQs criQs criF actF (.int t) state action reward undone unmask
          next_state is_weight is_index))) := by
  have hfacts : ∀ t : ℤ,
      (AgentTD3.actorStepped (AgentTD3.updateObjectivesRaw gamma crit N actGA
          criTQs criQs criF actF (.int t) state action reward undone unmask
          next_state) = true ↔ t % N = 0)
      ∧ ((AgentTD3.actorObj (AgentTD3.updateObjectivesRaw gamma crit N actGA
          criTQs criQs criF actF (.int t) state action reward undone unmask
          next_state)).isSome
        = AgentTD3.actorStepped (AgentTD3.updateObjectivesRaw gamma crit N actGA
          criTQs criQs criF actF (.int t) state action reward undone unmask
          next_state))
      ∧ (AgentTD3.actorStepped (AgentTD3.updateObjectivesPer gamma crit N actGA
          criTQs criQs criF actF (.int t) state action reward undone unmask
          next_state is_weight is_index) = true ↔ t % N = 0)
      ∧ ((AgentTD3.actorObj (AgentTD3.updateObjectivesPer gamma crit N actGA
          criTQs criQs criF actF (.int t) state action reward undone unmask
          next_state is_weight is_index)).isSome
        = AgentTD3.actorStepped (AgentTD3.updateObjectivesPer gamma crit N actGA
          criTQs criQs criF actF (.int t) state action reward undone unmask
          next_state is_weight is_index)) := by
    intro t
    by_cases h : t % N = 0 <;>
      simp [AgentTD3.updateObjectivesRaw, AgentTD3.updateObjectivesPer,
        AgentTD3.actorStepped, AgentTD3.actorObj, h]
  refine ⟨?_, hfacts⟩
  obtain ⟨t, ⟨hmem, hmod⟩, huniq⟩ := existsUnique_emod_eq_zero_Ico N t0 hN
  refine ⟨t, ⟨hmem, ((hfacts t).1).mpr hmod⟩, ?_⟩
  rintro y ⟨hymem, hystep⟩
  exact huniq y ⟨hymem, ((hfacts y).1).mp hystep⟩

/-- Witness for C6 at `update_freq = 2`, window `[0, 2)`, with trivial
batch data: exactly one of the two steps performs the actor update. -/
theorem C6_delayed_actor_update_witness :
    (0 : ℤ) < 2 ∧
    ∃! t : ℤ, t ∈ Finset.Ico (0 : ℤ) (0 + 2) ∧
      AgentTD3.actorStepped (AgentTD3.updateObjectivesRaw 1 (fun _ _ => 0) 2
        (fun _ => []) (fun _ _ => []) (fun _ _ => []) (fun _ _ => 0)
        (fun _ => []) (.int t) [] [] [] [] [] []) = true := by
  refine ⟨by decide, ?_⟩
  exact (C6_delayed_actor_update 1 (fun _ _ => 0) 2 (fun _ => [])
    (fun _ _ => []) (fun _ _ => []) (fun _ _ => 0) (fun _ => [])
    [] [] [] [] [] [] [] [] 0 (by decide)).1

/-- Claim C9: every update call (raw or prioritized, for `AgentDQN` and
`AgentDuelingDQN`, `AgentDoubleDQN` and `AgentD3QN`, and `AgentTD3`) rejects a
non-integer `update_t` with the assertion error before any computation runs:
the result is the bare error, carrying no objectives and no effects record,
so no module parameter, optimizer state or buffer state changes and the value
is never coerced. -/
theorem C9_nonint_update_t_rejected (v : PyVal) (hv : v.isInt = false)
    (gamma : ℚ) (crit : ℚ → ℚ → ℚ) (N : ℤ)
    (criTarget cri : Vec → Vec) (getQ1Q2T getQ1Q2 : Vec → Vec × Vec)
    (actGA : Vec → Vec) (criTQs criQs : Vec → Vec → Vec)
    (criF : Vec → Vec → ℚ) (actF : Vec → Vec)
    (state next_state caction : List Vec) (action : List ℕ)
    (reward undone unmask is_weight : List ℚ) (is_index : List ℕ) :
    AgentDQN.updateObjectivesRaw gamma crit criTarget cri v
        state action reward undone unmask next_state
      = .error "AssertionError: isinstance(update_t, int)"
    ∧ AgentDQN.updateObjectivesPer gamma crit criTarget cri v
        state action reward undone unmask next_state is_weight is_index
      = .error "AssertionError: isinstance(update_t, int)"
    ∧ AgentDoubleDQN.updateObjectivesRaw gamma crit getQ1Q2T getQ1Q2 v
        state action reward undone unmask next_state
      = .error "AssertionError: isinstance(update_t, int)"
    ∧ AgentDoubleDQN.updateObjectivesPer gamma crit getQ1Q2T getQ1Q2 v
        state action reward undone unmask next_state is_weight is_index
      = .error "AssertionError: isinstance(update_t, int)"
    ∧ AgentTD3.updateObjectivesRaw gamma crit N actGA criTQs criQs criF actF v
        state caction reward undone unmask next_state
      = .error "AssertionError: isinstance(update_t, int)"
    ∧ AgentTD3.updateObjectivesPer gamma crit N actGA criTQs criQs criF actF v
        state caction reward undone unmask next_state is_weight is_index
      = .error "AssertionError: isinstance(update_t, int)" := by
  cases v with
  | int t => simp [PyVal.isInt] at hv
  | float q =>
    exact ⟨rfl, rfl, rfl, rfl, rfl, rfl⟩

/-- Witness for C9 at the concrete non-integer step counter `0.5` with a
trivial batch: both the plain DQN raw update and the TD3 raw update are
rejected with the assertion error. -/
theorem C9_nonint_update_t_rejected_witness :
    PyVal.isInt (.float (1/2)) = false
    ∧ AgentDQN.updateObjectivesRaw 1 (fun _ _ => 0) (fun _ => []) (fun _ => [])
        (.float (1/2)) [] [] [] [] [] []
      = .error "AssertionError: isinstance(update_t, int)"
    ∧ AgentTD3.updateObjectivesRaw 1 (fun _ _ => 0) 2 (fun _ => [])
        (fun _ _ => []) (fun _ _ => []) (fun _ _ => 0) (fun _ => [])
        (.float (1/2)) [] [] [] [] [] []
      = .error "AssertionError: isinstance(update_t, int)" := by
  have h := C9_nonint_update_t_rejected (.float (1/2)) rfl 1 (fun _ _ => 0) 2
    (fun _ => []) (fun _ => []) (fun _ => ([], [])) (fun _ => ([], []))
    (fun _ => []) (fun _ _ => []) (fun _ _ => []) (fun _ _ => 0) (fun _ => [])
    [] [] [] [] [] [] [] [] []
  exact ⟨rfl, h.1, h.2.2.2.2.1⟩

/-- Per-row lists of the two per-head criterion values of the twin-Q DQN
updates: row `b` is `[criterion(q_value1_b, label_b), criterion(q_value2_b, label_b)]`,
the two summands of source line 102/118 viewed as one head dimension. -/
def ddqn_head_losses (crit : ℚ → ℚ → ℚ)
    (q_value1 q_value2 q_label : List ℚ) : List Vec :=
  zip3With (fun v1 v2 lab => [crit v1 lab, crit v2 lab]) q_value1 q_value2 q_label

lemma sum_map_mulRight (l : List ℚ) (u : ℚ) : (l.map (· * u)).sum = l.sum * u := by
  induction l with
  | nil => simp
  | cons a as ih => simp [ih]; ring

lemma ddqn_head_losses_map_sum (crit : ℚ → ℚ → ℚ) (qv1 qv2 lab : List ℚ) :
    (ddqn_head_losses crit qv1 qv2 lab).map List.sum
      = zip3With (fun v1 v2 l => crit v1 l + crit v2 l) qv1 qv2 lab := by
  unfold ddqn_head_losses
  induction qv1 generalizing qv2 lab with
  | nil => simp [zip3With]
  | cons a as ih =>
    cases qv2 with
    | nil => simp [zip3With]
    | cons b bs =>
      cases lab with
      | nil => simp [zip3With]
      | cons c cs => simp [zip3With, ih]

lemma c3_per_aux (n : ℕ) (hn : n ≠ 0) (rows : List Vec) (um : List ℚ)
    (h : ∀ r ∈ rows, r.length = n) :
    (List.zipWith (· * ·) (rows.map listMean) um).map (fun x => (n : ℚ) * x)
      = List.zipWith (· * ·) (rows.map List.sum) um := by
  induction rows generalizing um with
  | nil => simp
  | cons r rs ih =>
    cases um with
    | nil => simp
    | cons u us =>
      have hr : r.length = n := h r (List.mem_cons_self _ _)
      have hrest := ih us (fun r hr' => h r (List.mem_cons_of_mem _ hr'))
      have hn' : (n : ℚ) ≠ 0 := Nat.cast_ne_zero.mpr hn
      simp only [List.map_cons, List.zipWith_cons_cons]
      rw [hrest]
      congr 1
      rw [listMean, hr]
      field_simp

lemma c3_raw_aux (n : ℕ) (hn : n ≠ 0) (rows : List Vec) (um : List ℚ)
    (h : ∀ r ∈ rows, r.length = n) :
    (List.flatten (List.zipWith (fun row u => row.map (· * u)) rows um)).sum
      = (n : ℚ) * (List.zipWith (· * ·) (rows.map listMean) um).sum
    ∧ (List.flatten (List.zipWith (fun row u => row.map (· * u)) rows um)).length
      = n * (List.zipWith (· * ·) (rows.map listMean) um).length := by
  induction rows generalizing um with
  | nil => simp
  | cons r rs ih =>
    cases um with
    | nil => simp
    | cons u us =>
      have hr : r.length = n := h r (List.mem_cons_self _ _)
      have hrest := ih us (fun r hr' => h r (List.mem_cons_of_mem _ hr'))
      have hn' : (n : ℚ) ≠ 0 := Nat.cast_ne_zero.mpr hn
      constructor
      · simp only [List.zipWith_cons_cons, List.flatten_cons, List.sum_append,
          List.map_cons, List.sum_cons]
        rw [hrest.1, sum_map_mulRight, listMean, hr]
        field_simp
        ring
      · simp only [List.zipWith_cons_cons, List.flatten_cons, List.length_append,
          List.length_map, List.map_cons, List.length_cons]
        rw [hrest.2, hr]
        ring

/-- Claim C3 counterexample: the claim that per-head losses are summed across heads
before masking/weighting is false for TD3 — with squared-error criterion, one
sample, two ensemble heads valued `[0, 2]`, label 0 and `unmask = 1`, the
prioritized TD3 per-sample error (source line 70, `.mean(dim=-1)`) is `[2]`
while the spec's sum-across-heads pipeline yields `[4]`. -/
theorem C3_counterexample :
    td3_td_error_per (fun a b => (a - b) ^ 2) [[0, 2]] [0] [1]
      ≠ specSumHeadsThenMask (td3_head_losses (fun a b => (a - b) ^ 2) [[0, 2]] [0]) [1] := by
  norm_num [td3_td_error_per, td3_head_losses, specSumHeadsThenMask, listMean]

/-- Claim C3 amended: the per-head regression losses are summed across heads before
the `unmask` masking and any importance-weighting in the twin-Q DQN updates
(first conjunct: line 102/118 equals the sum-then-mask pipeline exactly);
in the TD3 updates the heads are instead aggregated by their mean, i.e. the
sum divided by the head count (second conjunct: `N` times the prioritized
per-sample error equals the sum-then-mask pipeline), and the raw TD3 critic
objective — which masks elementwise and then takes the grand mean — equals
the plain mean of those per-row head-averaged masked errors (third
conjunct). -/
theorem C3_amended (crit : ℚ → ℚ → ℚ) :
    (∀ (qv1 qv2 lab um : List ℚ),
      ddqn_td_error crit qv1 qv2 lab um
        = specSumHeadsThenMask (ddqn_head_losses crit qv1 qv2 lab) um)
    ∧ (∀ (qvs : List Vec) (lab um : List ℚ) (n : ℕ), n ≠ 0 →
      (∀ r ∈ td3_head_losses crit qvs lab, r.length = n) →
      (td3_td_error_per crit qvs lab um).map (fun x => (n : ℚ) * x)
        = specSumHeadsThenMask (td3_head_losses crit qvs lab) um)
    ∧ (∀ (qvs : List Vec) (lab um : List ℚ) (n : ℕ), n ≠ 0 →
      (∀ r ∈ td3_head_losses crit qvs lab, r.length = n) →
      td3_obj_critic_raw crit qvs lab um
        = listMean (td3_td_error_per crit qvs lab um)) := by
  refine ⟨?_, ?_, ?_⟩
  · intro qv1 qv2 lab um
    unfold ddqn_td_error specSumHeadsThenMask
    rw [ddqn_head_losses_map_sum]
  · intro qvs lab um n hn hrows
    unfold td3_td_error_per specSumHeadsThenMask
    exact c3_per_aux n hn _ um hrows
  · intro qvs lab um n hn hrows
    unfold td3_obj_critic_raw td3_td_error_per
    obtain ⟨hsum, hlen⟩ := c3_raw_aux n hn (td3_head_losses crit qvs lab) um hrows
    rw [listMean, listMean, hsum, hlen]
    have hn' : (n : ℚ) ≠ 0 := Nat.cast_ne_zero.mpr hn
    push_cast
    rw [mul_div_mul_left _ _ hn']

/-- Witness for C3 amended with squared-error criterion: the twin-Q DQN error
at a concrete sample equals the sum-then-mask pipeline, and for a TD3 batch
with two heads valued `[0, 2]`, label 0, `unmask = 1`, double the per-sample
error equals the sum pipeline and the raw objective equals the mean of the
per-sample errors. -/
theorem C3_amended_witness :
    ddqn_td_error (fun a b => (a - b) ^ 2) [1] [2] [0] [1]
      = specSumHeadsThenMask (ddqn_head_losses (fun a b => (a - b) ^ 2) [1] [2] [0]) [1]
    ∧ (td3_td_error_per (fun a b => (a - b) ^ 2) [[0, 2]] [0] [1]).map
        (fun x => (2 : ℚ) * x)
      = specSumHeadsThenMask (td3_head_losses (fun a b => (a - b) ^ 2) [[0, 2]] [0]) [1]
    ∧ td3_obj_critic_raw (fun a b => (a - b) ^ 2) [[0, 2]] [0] [1]
      = listMean (td3_td_error_per (fun a b => (a - b) ^ 2) [[0, 2]] [0] [1]) := by
  have h := C3_amended (fun a b => (a - b) ^ 2)
  have hrows : ∀ r ∈ td3_head_losses (fun a b => (a - b) ^ 2) [[0, 2]] [0],
      r.length = 2 := by
    intro r hr
    simp only [td3_head_losses, List.zipWith_cons_cons, List.zipWith_nil_right,
      List.map_cons, List.map_nil] at hr
    rcases List.mem_cons.mp hr with rfl | hf
    · rfl
    · cases hf
  have h2 : ((2 : ℕ) : ℚ) = (2 : ℚ) := by norm_num
  refine ⟨h.1 [1] [2] [0] [1], ?_, h.2.2 [[0, 2]] [0] [1] 2 (by decide) hrows⟩
  have := h.2.1 [[0, 2]] [0] [1] 2 (by decide) hrows
  simpa [h2] using this

/-- Output distribution of `QNetwork.get_action` on a batch, derived from the
randomness of the source: `th.rand(1)` draws ONE uniform number for the whole
call and exploits iff it exceeds `explore_rate` (probability `1 - p` for a
rate `p ∈ [0, 1]`), in which case every row is its argmax; otherwise
(probability `p`) the output is `th.randint` — independent uniform draws over
the `A` actions, one per row. `codeGetActionProb qss A p out` is the
probability that the call returns the action vector `out`. -/
def codeGetActionProb (qss : List Vec) (A : ℕ) (p : ℚ) (out : List ℕ) : ℚ :=
  (1 - p) * (if out = qss.map argmaxIdx then 1 else 0)
  + p * (if out.length = qss.length ∧ ∀ a ∈ out, a < A
      then 1 / (A : ℚ) ^ qss.length else 0)

/-- Written from the spec sentence "draw a uniform random number; if it
exceeds the configured explore-rate, pick argmax ...; otherwise pick a
uniformly random discrete action. Applies per-row for batched states": each
row makes its own independent explore-versus-exploit decision, so the output
probability is the product over rows of the per-row mixture. -/
def specPerRowActionProb (qss : List Vec) (A : ℕ) (p : ℚ) (out : List ℕ) : ℚ :=
  if out.length = qss.length then
    (List.zipWith (fun a q =>
      (1 - p) * (if a = argmaxIdx q then 1 else 0)
        + p * (if a < A then 1 / (A : ℚ) else 0)) out qss).prod
  else 0

/-- Claim C7 counterexample: the explore-versus-exploit decision is not applied
independently per row. For a batch of two identical rows `[0, 1]` (argmax 1),
two actions and explore-rate `1/2`, the mixed outcome "row 0 exploits, row 1
explores to action 0" has probability `3/16` under per-row independent
decisions but `1/8` under the code, whose single shared draw makes the whole
batch exploit or explore together. -/
theorem C7_counterexample :
    codeGetActionProb [[0, 1], [0, 1]] 2 (1/2) [1, 0]
      ≠ specPerRowActionProb [[0, 1], [0, 1]] 2 (1/2) [1, 0] := by
  norm_num [codeGetActionProb, specPerRowActionProb, argmaxIdx, listMax]

/-- Claim C7 amended: in `QNetwork.get_action` the explore-versus-exploit decision
is taken once per call from a single scalar draw shared by every row of the
batch: either every row of the output is its own argmax (exploit branch), or
the output is exactly the per-row tape of uniform random actions (explore
branch); only those explore-branch actions are drawn per row. -/
theorem C7_amended (qnet : Vec → Vec) (avg std : Vec) (states : List Vec)
    (explore_rate u : ℚ) (randActions : List ℕ) :
    QNetwork.get_action qnet avg std states explore_rate u randActions
      = states.map (fun s => argmaxIdx (qnet (stateNorm avg std s)))
    ∨ QNetwork.get_action qnet avg std states explore_rate u randActions
      = randActions := by
  unfold QNetwork.get_action
  split
  · exact Or.inl rfl
  · exact Or.inr rfl

/-- Python-level facts about a `get_action` method, read off its `def` line
and body in `AgentDQN.py`: the positional parameter names after `self`, and
whether the body reads the `self.explore_rate` attribute. -/
structure GetActionMethod where
  params : List String
  readsExploreRateAttr : Bool
deriving DecidableEq

/-- Signature of `QNetwork.get_action(self, state, explore_rate)` (line 173);
its branch condition uses the `explore_rate` parameter, not an attribute. -/
def QNetwork.get_action_sig : GetActionMethod := ⟨["state", "explore_rate"], false⟩

/-- Signature of `QNetDuel.get_action(self, state)` (line 200); its body reads
`self.explore_rate` (line 202). -/
def QNetDuel.get_action_sig : GetActionMethod := ⟨["state"], true⟩

/-- Signature of `QNetTwin.get_action(self, state)` (line 235); its body reads
`self.explore_rate` (line 239). -/
def QNetTwin.get_action_sig : GetActionMethod := ⟨["state"], true⟩

/-- Signature of `QNetTwinDuel.get_action(self, state)` (line 283); its body
reads `self.explore_rate` (line 287). -/
def QNetTwinDuel.get_action_sig : GetActionMethod := ⟨["state"], true⟩

/-- Python errors the exploration-helper calls can raise. -/
inductive PyCallError where
  | typeError
  | attributeError
deriving DecidableEq

/-- Python call semantics for these methods: a keyword argument whose name is
not among the parameters raises `TypeError` before the body runs; otherwise
the body runs, and a body that reads `self.explore_rate` raises
`AttributeError` when the module object has no such attribute (`hasAttr`
records whether it is set; none of the `QNet*` class `__init__` methods in
the source assigns `self.explore_rate` — `AgentDQN.__init__` line 27 sets it
on the agent, not on the module). -/
def callGetAction (m : GetActionMethod) (kwargs : List String) (hasAttr : Bool) :
    Except PyCallError Unit :=
  if kwargs.any (fun kw => !(m.params.contains kw)) then
    .error .typeError
  else if m.readsExploreRateAttr && !hasAttr then
    .error .attributeError
  else
    .ok ()

/-- Call shape of `AgentDQN._explore_one_action` and `_explore_vec_action`
(lines 30-34), inherited unchanged by `AgentDoubleDQN`, `AgentDuelingDQN` and
`AgentD3QN`: `self.act.get_action(state, explore_rate=self.explore_rate)` —
the `explore_rate` keyword is always passed. -/
def exploreHelperCall (m : GetActionMethod) (hasAttr : Bool) :
    Except PyCallError Unit :=
  callGetAction m ["explore_rate"] hasAttr

/-- Claim C10: for the Double DQN, Dueling DQN and D3QN variants every call to the
inherited exploration helpers raises `TypeError` instead of returning an
action — `QNetTwin.get_action`, `QNetDuel.get_action` and
`QNetTwinDuel.get_action` do not accept the `explore_rate` keyword the
helpers pass — regardless of the module's attributes; moreover
`QNetDuel.get_action`'s body reads the `self.explore_rate` attribute, which
the source never sets on the module, so even a keyword-free call errors
(fourth conjunct); the plain `QNetwork.get_action` accepts the keyword and
the same helper call succeeds there (final conjunct). -/
theorem C10_inherited_explore_helpers_error :
    (∀ hasAttr : Bool,
      exploreHelperCall QNetTwin.get_action_sig hasAttr = .error .typeError
      ∧ exploreHelperCall QNetDuel.get_action_sig hasAttr = .error .typeError
      ∧ exploreHelperCall QNetTwinDuel.get_action_sig hasAttr = .error .typeError)
    ∧ callGetAction QNetDuel.get_action_sig [] false = .error .attributeError
    ∧ (∀ hasAttr : Bool,
      exploreHelperCall QNetwork.get_action_sig hasAttr = .ok ()) := by
  refine ⟨fun hasAttr => ⟨rfl, rfl, rfl⟩, rfl, fun hasAttr => rfl⟩

end ElegantRL
